import Mathlib

/-!
Verification of the Trainalyze email-refund pipeline against its
specification.  The definitions below are a shallow embedding of the
Python source (`src/app.py`, mirrored in `src/api/index.py`): Python
strings become `String`, Python floats (prices, percentages) become `ℚ`
with Python's banker's rounding made explicit, Python ints become `ℤ`,
optional dictionary entries become `Option`, and Python truthiness is
made explicit per type.  The wall clock (`datetime.now()`) is passed as
an explicit parameter.
-/

namespace Trainalyze

/-- Python truthiness of an optional string: present and non-empty. -/
def truthyStr (s : Option String) : Bool :=
  match s with
  | none => false
  | some s => s ≠ ""

/-- Python truthiness of an optional rational (float): present and nonzero. -/
def truthyQ (q : Option ℚ) : Bool :=
  match q with
  | none => false
  | some q => q ≠ 0

/-- Python truthiness of an optional integer: present and nonzero. -/
def truthyInt (n : Option ℤ) : Bool :=
  match n with
  | none => false
  | some n => n ≠ 0

/-- Round a rational to the nearest integer, ties to even — the rounding
used by Python's builtin `round` (idealised over exact rationals). -/
def roundHalfEven (x : ℚ) : ℤ :=
  let f : ℤ := ⌊x⌋
  let r : ℚ := x - f
  if r < 1/2 then f
  else if r > 1/2 then f + 1
  else if Even f then f else f + 1

/-- `round(x, 2)` from the source: round to 2 decimal places. -/
def round2 (x : ℚ) : ℚ :=
  (roundHalfEven (x * 100) : ℚ) / 100

/-- Python `int()` on a rational: truncation toward zero. -/
def pyInt (q : ℚ) : ℤ :=
  if 0 ≤ q then ⌊q⌋ else ⌈q⌉

/-- `DELAY_REPAY_SCHEMES['standard']` (dict in insertion order). -/
def schemeStandard : List (ℤ × ℚ) := [(15, 1/4), (30, 1/2), (60, 1)]

/-- `DELAY_REPAY_SCHEMES['delay_repay_15']` (dict in insertion order). -/
def schemeDelayRepay15 : List (ℤ × ℚ) := [(15, 1/4), (30, 1/2), (60, 1), (120, 1)]

/-- `DELAY_REPAY_SCHEMES['tfl']`: full refund for 15+ mins. -/
def schemeTfl : List (ℤ × ℚ) := [(15, 1)]

/-- `DR15_OPERATORS` from the source. -/
def DR15_OPERATORS : List String :=
  ["LNER", "Avanti West Coast", "Great Western Railway", "GWR", "c2c",
   "Greater Anglia", "Southeastern", "TransPennine Express",
   "East Midlands Railway", "Chiltern Railways", "CrossCountry"]

/-- Insert into a descending-sorted list (by (threshold, pct) tuple). -/
def insertDesc (x : ℤ × ℚ) : List (ℤ × ℚ) → List (ℤ × ℚ)
  | [] => [x]
  | y :: ys =>
      if y.1 < x.1 ∨ (y.1 = x.1 ∧ y.2 < x.2) then x :: y :: ys
      else y :: insertDesc x ys

/-- `sorted(scheme.items(), reverse=True)`: dict items sorted by
descending (threshold, pct) tuple; the thresholds of each scheme are
distinct, so any correct descending sort agrees with Python's. -/
def sortedDesc : List (ℤ × ℚ) → List (ℤ × ℚ)
  | [] => []
  | x :: xs => insertDesc x (sortedDesc xs)

/-- The `for threshold, pct in sorted(...)` loop of `calculate_refund`:
take the first threshold the delay meets or exceeds. -/
def firstThreshold : List (ℤ × ℚ) → ℤ → ℚ → Option ℚ × Option ℤ
  | [], _, _ => (none, none)
  | (threshold, pct) :: rest, d, p =>
      if threshold ≤ d then (some (round2 (p * pct)), some (pyInt (pct * 100)))
      else firstThreshold rest d p

/-- `calculate_refund(delay_mins, price, operator)` from the source. -/
def calculate_refund (delay_mins : Option ℤ) (price : Option ℚ)
    (operator : String) : Option ℚ × Option ℤ :=
  if !(truthyInt delay_mins) || !(truthyQ price) then (none, none)
  else
    let scheme :=
      if operator = "TfL" then schemeTfl
      else if operator ∈ DR15_OPERATORS then schemeDelayRepay15
      else schemeStandard
    firstThreshold (sortedDesc scheme) (delay_mins.getD 0) (price.getD 0)

/-- Python `str.lower()` (ASCII model; every keyword and station name in
the source's tables is ASCII). -/
def strLower (s : String) : String :=
  ⟨s.toList.map Char.toLower⟩

/-- Python `str.upper()` (ASCII model; extracted booking refs are
upper-cased alphanumerics). -/
def strUpper (s : String) : String :=
  ⟨s.toList.map Char.toUpper⟩

/-- Python slicing `s[:n]` (by code point). -/
def strTake (s : String) (n : ℕ) : String :=
  ⟨s.toList.take n⟩

/-- Python's `needle in hay` substring test. -/
def strContains (hay needle : String) : Bool :=
  decide (needle.toList <:+: hay.toList)

/-- `categorise_email(subject, body, sender)` from the source: the
`if/elif` chain of keyword-set membership tests. -/
def categorise_email (subject body sender : String) : String :=
  let text := strLower (subject ++ " " ++ body)
  if ["delay repay", "compensation claim", "your claim", "delay compensation"].any
      (fun kw => strContains text kw) then "delay_claim"
  else if ["refund", "money back", "reimbursement", "credited"].any
      (fun kw => strContains text kw) then "refund"
  else if ["cancelled", "cancellation", "service disruption", "not running"].any
      (fun kw => strContains text kw) then "cancellation"
  else if ["delayed", "delay", "late", "disruption"].any
      (fun kw => strContains text kw) then "delay"
  else if ["booking confirmation", "e-ticket", "your ticket", "booking reference"].any
      (fun kw => strContains text kw) then "booking"
  else if ["journey history", "oyster statement", "contactless statement"].any
      (fun kw => strContains text kw) then "statement"
  else if ["receipt", "payment", "invoice"].any
      (fun kw => strContains text kw) then "receipt"
  else "other"

/-- The spec's description of the classifier: an explicitly ordered
sequence of (keyword set, category) pairs, evaluated in order, first
match wins, default `other`.  Written from the spec's words, to be
compared with `categorise_email` above. -/
def categoryRules : List (List String × String) :=
  [ (["delay repay", "compensation claim", "your claim", "delay compensation"], "delay_claim"),
    (["refund", "money back", "reimbursement", "credited"], "refund"),
    (["cancelled", "cancellation", "service disruption", "not running"], "cancellation"),
    (["delayed", "delay", "late", "disruption"], "delay"),
    (["booking confirmation", "e-ticket", "your ticket", "booking reference"], "booking"),
    (["journey history", "oyster statement", "contactless statement"], "statement"),
    (["receipt", "payment", "invoice"], "receipt") ]

/-- Spec-side classifier: lower-case subject+body, return the category
of the first rule whose keyword set has a match, else `other`. -/
def categoriseSpec (subject body sender : String) : String :=
  let text := strLower (subject ++ " " ++ body)
  match categoryRules.find? (fun r => r.1.any (fun kw => strContains text kw)) with
  | some r => r.2
  | none => "other"

/-! ## Delay-duration extraction

A direct operational model of Python's
`re.search(r'(\d+)\s*(?:minute|min|hour|hr)s?\s*(?:late|delay)', text, re.IGNORECASE)`
with leftmost-first backtracking semantics, restricted to ASCII digits,
whitespace and case folding (all the pattern's literals are ASCII). -/

/-- Python's `\s` whitespace class (ASCII part). -/
def pyIsSpace (c : Char) : Bool :=
  c = ' ' || c = '\t' || c = '\n' || c = '\r' || c = '\x0b' || c = '\x0c'

/-- Numeric value of a digit run, as matched by `(\d+)` and read by `int`. -/
def digitsVal (ds : List Char) : ℕ :=
  ds.foldl (fun acc c => acc * 10 + (c.toNat - 48)) 0

/-- Greedy `\d+` / `\d*`: split off the leading digit run. -/
def takeDigits : List Char → List Char × List Char
  | [] => ([], [])
  | c :: cs =>
      if c.isDigit then
        let (a, b) := takeDigits cs
        (c :: a, b)
      else ([], c :: cs)

/-- Greedy `\s*`: split off the leading whitespace run. -/
def takeSpaces : List Char → List Char × List Char
  | [] => ([], [])
  | c :: cs =>
      if pyIsSpace c then
        let (a, b) := takeSpaces cs
        (c :: a, b)
      else ([], c :: cs)

/-- Case-insensitive literal match: consume `pat` (given lowercase) from
the front of `s`; return the consumed original characters and the rest. -/
def litCI : List Char → List Char → Option (List Char × List Char)
  | [], s => some ([], s)
  | _ :: _, [] => none
  | p :: ps, c :: cs =>
      if c.toLower = p then
        match litCI ps cs with
        | some (a, b) => some (c :: a, b)
        | none => none
      else none

/-- Match the pattern suffix `\s*(?:late|delay)`. -/
def matchTail (s : List Char) : Option (List Char × List Char) :=
  let (w, r) := takeSpaces s
  match litCI "late".toList r with
  | some (a, r2) => some (w ++ a, r2)
  | none =>
      match litCI "delay".toList r with
      | some (a, r2) => some (w ++ a, r2)
      | none => none

/-- Match `s?\s*(?:late|delay)` with backtracking over the optional `s`. -/
def matchSOpt (s : List Char) : Option (List Char × List Char) :=
  match s with
  | c :: r =>
      if c.toLower = 's' then
        match matchTail r with
        | some (t, r2) => some (c :: t, r2)
        | none => matchTail s
      else matchTail s
  | [] => matchTail s

/-- The unit alternation `(?:minute|min|hour|hr)`, in the pattern's order. -/
def unitAlternatives : List (List Char) :=
  ["minute".toList, "min".toList, "hour".toList, "hr".toList]

/-- Match `(?:minute|min|hour|hr)s?\s*(?:late|delay)`, trying the unit
alternatives in order with backtracking. -/
def matchUnits : List (List Char) → List Char → Option (List Char × List Char)
  | [], _ => none
  | u :: us, s =>
      match litCI u s with
      | some (a, r) =>
          match matchSOpt r with
          | some (t, r2) => some (a ++ t, r2)
          | none => matchUnits us s
      | none => matchUnits us s

/-- Match the whole delay pattern anchored at the current position;
returns `(group(1) digits, group(0) matched text)` on success. -/
def matchDelayAt (s : List Char) : Option (List Char × List Char) :=
  let (ds, r1) := takeDigits s
  if ds.isEmpty then none
  else
    let (w, r2) := takeSpaces r1
    match matchUnits unitAlternatives r2 with
    | some (u, _) => some (ds, ds ++ w ++ u)
    | none => none

/-- `re.search`: try the pattern at each position, leftmost match wins. -/
def searchDelay : List Char → Option (List Char × List Char)
  | [] => none
  | c :: cs =>
      match matchDelayAt (c :: cs) with
      | some m => some m
      | none => searchDelay cs

/-- The delay-duration block of `extract_data`: search the pattern, read
`int(group(1))`, multiply by 60 when `'hour' in group(0).lower()`. -/
def extractDelayMins (text : String) : Option ℤ :=
  match searchDelay text.toList with
  | none => none
  | some (g1, g0) =>
      let d : ℤ := digitsVal g1
      if decide ("hour".toList <:+: g0.map Char.toLower) then some (d * 60)
      else some d

/-- `UK_STATIONS` gazetteer from the source, in source order. -/
def UK_STATIONS : List String :=
  ["London Euston", "London Kings Cross", "London St Pancras", "London Paddington",
   "London Victoria", "London Waterloo", "London Liverpool Street", "London Bridge",
   "Manchester Piccadilly", "Birmingham New Street", "Leeds", "Glasgow Central",
   "Edinburgh Waverley", "Bristol Temple Meads", "Liverpool Lime Street", "Newcastle",
   "Sheffield", "Nottingham", "Leicester", "Cambridge", "Oxford", "Brighton", "Reading",
   "Cardiff Central", "York", "Peterborough", "Milton Keynes", "Crewe", "Preston"]

/-- The `found_stations` accumulation of `extract_data`: every gazetteer
station whose lower-cased name is a substring of the lower-cased text,
in gazetteer order. -/
def found_stations (text : String) : List String :=
  UK_STATIONS.filter (fun station => strContains (strLower text) (strLower station))

/-- The station/route block of `extract_data`: `(origin, destination)`. -/
def stationFields (text : String) : Option String × Option String :=
  match found_stations text with
  | a :: b :: _ => (some a, some b)
  | [a] => (some a, none)
  | [] => (none, none)

/-! ## Dates and the claim-deadline calculator

`datetime` values are modelled as a day number (days since 0000-03-01,
proleptic Gregorian), a time of day in seconds, and an optional UTC
offset in seconds (`none` = naive, `some _` = timezone-aware).  The wall
clock `datetime.now()` is an explicit parameter. -/

/-- Gregorian leap year. -/
def isLeap (y : ℕ) : Bool :=
  y % 4 = 0 && (y % 100 ≠ 0 || y % 400 = 0)

/-- Days in a month (with leap-February), used by `datetime` validation. -/
def daysInMonth (y m : ℕ) : ℕ :=
  if m = 2 then (if isLeap y then 29 else 28)
  else if m = 4 ∨ m = 6 ∨ m = 9 ∨ m = 11 then 30
  else 31

/-- Day number of a civil date (days since 0000-03-01). -/
def daysFromCivil (y m d : ℕ) : ℕ :=
  let yAdj := if m ≤ 2 then y - 1 else y
  let era := yAdj / 400
  let yoe := yAdj % 400
  let mp := if 2 < m then m - 3 else m + 9
  let doy := (153 * mp + 2) / 5 + d - 1
  let doe := yoe * 365 + yoe / 4 - yoe / 100 + doy
  era * 146097 + doe

/-- Civil date `(y, m, d)` of a day number (inverse of `daysFromCivil`). -/
def civilFromDays (z : ℕ) : ℕ × ℕ × ℕ :=
  let era := z / 146097
  let doe := z % 146097
  let yoe := (doe - doe / 1460 + doe / 36524 - doe / 146096) / 365
  let y := yoe + era * 400
  let doy := doe - (365 * yoe + yoe / 4 - yoe / 100)
  let mp := (5 * doy + 2) / 153
  let d := doy - (153 * mp + 2) / 5 + 1
  let m := if mp < 10 then mp + 3 else mp - 9
  (if m ≤ 2 then y + 1 else y, m, d)

/-- A Python `datetime`: day number, seconds within the day, and an
optional UTC offset in seconds (`none` means naive). -/
structure PyDatetime where
  days : ℤ
  micros : ℤ
  tz : Option ℤ
  deriving Repr, DecidableEq

/-- `a > b` on datetimes.  Comparing a naive and an aware datetime
raises `TypeError` in Python, modelled as `none`. -/
def pyGT (a b : PyDatetime) : Option Bool :=
  match a.tz, b.tz with
  | none, none =>
      some (decide (b.days < a.days ∨ (b.days = a.days ∧ b.micros < a.micros)))
  | some ta, some tb =>
      some (decide (b.days * 86400000000 + b.micros - tb * 1000000 <
        a.days * 86400000000 + a.micros - ta * 1000000))
  | _, _ => none

/-- `dt + timedelta(days=n)` (keeps time of day and tzinfo). -/
def addDays (dt : PyDatetime) (n : ℤ) : PyDatetime :=
  { dt with days := dt.days + n }

/-- Zero-pad a number to a given width. -/
def padZeros (width n : ℕ) : String :=
  let s := toString n
  (List.replicate (width - s.length) '0').asString ++ s

/-- `dt.strftime('%Y-%m-%d')`. -/
def strftimeYMD (dt : PyDatetime) : String :=
  let c := civilFromDays dt.days.toNat
  padZeros 4 c.1 ++ "-" ++ padZeros 2 c.2.1 ++ "-" ++ padZeros 2 c.2.2

/-- Parse exactly `n` ASCII digits. -/
def parseNDigits (n : ℕ) (s : List Char) : Option (ℕ × List Char) :=
  let ds := s.take n
  if ds.length = n && ds.all Char.isDigit then some (digitsVal ds, s.drop n)
  else none

/-- Consume one expected character. -/
def expectChar (c : Char) : List Char → Option (List Char)
  | x :: xs => if x = c then some xs else none
  | [] => none

/-! ### `strptime` for the five formats tried by `get_claim_deadline`

CPython's `strptime` compiles a format to a regex: `%d` and `%m` match
one or two digits (two-digit form `01`–`31` resp. `01`–`12`, one-digit
form `1`–`9`, with backtracking), `%Y` matches exactly four digits,
`%b`/`%B` match a month name case-insensitively, literal whitespace
matches `\s+`, the whole string must be consumed, and the resulting
date must be a valid `datetime` (year at least 1, day fits the month). -/

inductive FmtTok where
  | d | m | Y | b | B
  | lit (c : Char)
  | ws
  deriving Repr

/-- Partly assembled `strptime` result. -/
structure FmtAcc where
  day : Option ℕ
  month : Option ℕ
  year : Option ℕ
  deriving Repr

/-- Abbreviated month names (C locale), lowercase for folded matching. -/
def MONTH_ABBRS : List String :=
  ["jan", "feb", "mar", "apr", "may", "jun", "jul", "aug", "sep", "oct", "nov", "dec"]

/-- Full month names (C locale), lowercase for folded matching. -/
def MONTH_NAMES : List String :=
  ["january", "february", "march", "april", "may", "june", "july",
   "august", "september", "october", "november", "december"]

/-- Match one month name from a list, returning its 1-based index. -/
def matchMonthName : List String → ℕ → List Char → Option (ℕ × List Char)
  | [], _, _ => none
  | nm :: rest, i, s =>
      match litCI nm.toList s with
      | some (_, r) => some (i, r)
      | none => matchMonthName rest (i + 1) s

/-- Run a format token list over the input, CPython-style: numeric
fields try the two-digit form first and backtrack to one digit, and the
whole input must be consumed. -/
def runFmt : List FmtTok → List Char → FmtAcc → Option FmtAcc
  | [], [], acc => some acc
  | [], _ :: _, _ => none
  | tok :: rest, s, acc =>
      match tok with
      | .lit c =>
          match s with
          | x :: xs => if x = c then runFmt rest xs acc else none
          | [] => none
      | .ws =>
          let (w, r) := takeSpaces s
          if w.isEmpty then none else runFmt rest r acc
      | .Y =>
          match parseNDigits 4 s with
          | some (v, r) => runFmt rest r { acc with year := some v }
          | none => none
      | .b =>
          match matchMonthName MONTH_ABBRS 1 s with
          | some (v, r) => runFmt rest r { acc with month := some v }
          | none => none
      | .B =>
          match matchMonthName MONTH_NAMES 1 s with
          | some (v, r) => runFmt rest r { acc with month := some v }
          | none => none
      | .d =>
          let one :=
            match s with
            | a :: r =>
                if a.isDigit && 1 ≤ digitsVal [a] then
                  runFmt rest r { acc with day := some (digitsVal [a]) }
                else none
            | [] => none
          match s with
          | a :: bc :: r =>
              if a.isDigit && bc.isDigit && 1 ≤ digitsVal [a, bc] && digitsVal [a, bc] ≤ 31 then
                match runFmt rest r { acc with day := some (digitsVal [a, bc]) } with
                | some x => some x
                | none => one
              else one
          | _ => one
      | .m =>
          let one :=
            match s with
            | a :: r =>
                if a.isDigit && 1 ≤ digitsVal [a] then
                  runFmt rest r { acc with month := some (digitsVal [a]) }
                else none
            | [] => none
          match s with
          | a :: bc :: r =>
              if a.isDigit && bc.isDigit && 1 ≤ digitsVal [a, bc] && digitsVal [a, bc] ≤ 12 then
                match runFmt rest r { acc with month := some (digitsVal [a, bc]) } with
                | some x => some x
                | none => one
              else one
          | _ => one

/-- `datetime.strptime(s, fmt)` for a pure date format: run the tokens,
then validate the date as the `datetime` constructor does. -/
def strptimeDate (toks : List FmtTok) (s : String) : Option PyDatetime :=
  match runFmt toks s.toList ⟨none, none, none⟩ with
  | some ⟨some d, some m, some y⟩ =>
      if 1 ≤ y ∧ 1 ≤ d ∧ d ≤ daysInMonth y m then
        some ⟨(daysFromCivil y m d : ℕ), 0, none⟩
      else none
  | _ => none

/-- The format list of `get_claim_deadline`, in source order:
`['%d/%m/%Y', '%d-%m-%Y', '%Y-%m-%d', '%d %b %Y', '%d %B %Y']`. -/
def DATE_FORMATS : List (List FmtTok) :=
  [[.d, .lit '/', .m, .lit '/', .Y],
   [.d, .lit '-', .m, .lit '-', .Y],
   [.Y, .lit '-', .m, .lit '-', .d],
   [.d, .ws, .b, .ws, .Y],
   [.d, .ws, .B, .ws, .Y]]

/-- The `for fmt in [...]` loop: first format that parses wins. -/
def tryFormats (s : String) : Option PyDatetime :=
  (DATE_FORMATS.map (fun toks => strptimeDate toks s)).foldr
    (fun r acc => match r with | some v => some v | none => acc) none

/-! ### `datetime.fromisoformat` (CPython pre-3.11 grammar)

`YYYY-MM-DD` optionally followed by one separator character and a time
`HH[:MM[:SS[.fff or .ffffff]]]`, optionally followed by a UTC offset
`±HH:MM[:SS]`; the whole string must be consumed. -/

/-- Parse the `HH[:MM[:SS[.fff or .ffffff]]]` time part, returning the
time of day in microseconds (a `datetime`'s exact precision). -/
def parseTimePart (t : List Char) : Option (ℤ × List Char) := do
  let (h, r) ← parseNDigits 2 t
  if 24 ≤ h then none
  else
    match expectChar ':' r with
    | none => some ((h * 3600 * 1000000 : ℕ), r)
    | some r2 => do
        let (mi, r3) ← parseNDigits 2 r2
        if 60 ≤ mi then none
        else
          match expectChar ':' r3 with
          | none => some (((h * 3600 + mi * 60) * 1000000 : ℕ), r3)
          | some r4 => do
              let (sec, r5) ← parseNDigits 2 r4
              if 60 ≤ sec then none
              else
                match expectChar '.' r5 with
                | none => some (((h * 3600 + mi * 60 + sec) * 1000000 : ℕ), r5)
                | some r6 =>
                    match parseNDigits 6 r6 with
                    | some (f, r7) =>
                        some (((h * 3600 + mi * 60 + sec) * 1000000 + f : ℕ), r7)
                    | none => do
                        let (f, r7) ← parseNDigits 3 r6
                        some (((h * 3600 + mi * 60 + sec) * 1000000 + f * 1000 : ℕ), r7)

/-- Parse the optional `±HH:MM[:SS]` offset; the rest must be empty. -/
def parseOffsetEnd (r : List Char) : Option (Option ℤ) :=
  match r with
  | [] => some none
  | c :: rest =>
      if c = '+' ∨ c = '-' then do
        let (oh, r1) ← parseNDigits 2 rest
        let r2 ← expectChar ':' r1
        let (om, r3) ← parseNDigits 2 r2
        if 24 ≤ oh ∨ 60 ≤ om then none
        else
          let finish : List Char → Option Unit := fun tail =>
            match tail with
            | [] => some ()
            | _ => do
                let t2 ← expectChar ':' tail
                let (os, r4) ← parseNDigits 2 t2
                if 60 ≤ os ∨ ¬r4.isEmpty then none else some ()
          let _ ← finish r3
          let off : ℤ := (oh * 3600 + om * 60 : ℕ)
          some (some (if c = '-' then -off else off))
      else none

/-- Python `str.replace` for a single-character pattern (the source
replaces every `'Z'` with `'+00:00'`). -/
def pyReplaceChar (s : String) (c : Char) (repl : String) : String :=
  ⟨s.toList.foldr (fun x acc => if x = c then repl.toList ++ acc else x :: acc) []⟩

/-- `datetime.fromisoformat` on the (already `Z`-replaced) string. -/
def parseISO (s : List Char) : Option PyDatetime := do
  let (y, r0) ← parseNDigits 4 s
  let r1 ← expectChar '-' r0
  let (mo, r2) ← parseNDigits 2 r1
  let r3 ← expectChar '-' r2
  let (d, r4) ← parseNDigits 2 r3
  if ¬(1 ≤ y ∧ 1 ≤ mo ∧ mo ≤ 12 ∧ 1 ≤ d ∧ d ≤ daysInMonth y mo) then none
  else
    match r4 with
    | [] => some ⟨(daysFromCivil y mo d : ℕ), 0, none⟩
    | _ :: time => do
        let (micros, r5) ← parseTimePart time
        let tz ← parseOffsetEnd r5
        some ⟨(daysFromCivil y mo d : ℕ), micros, tz⟩

/-- `CLAIM_DEADLINES` table from the source (dict in insertion order). -/
def CLAIM_DEADLINES : List (String × ℤ) :=
  [("default", 28), ("LNER", 28), ("Avanti West Coast", 28),
   ("Great Western Railway", 28), ("GWR", 28), ("TfL", 28), ("National Express", 30)]

/-- `get_claim_deadline(operator, journey_date_str)` from the source,
with `datetime.now()` passed explicitly.  The bare `except` around the
whole body is modelled by the `none` fall-throughs: a parse failure, or
the `TypeError` from comparing a naive `now` with an aware deadline,
yields `(None, 'unknown')`. -/
def get_claim_deadline (operator : String) (journey_date_str : Option String)
    (now : PyDatetime) : Option String × String :=
  let deadline_days :=
    (CLAIM_DEADLINES.lookup operator).getD ((CLAIM_DEADLINES.lookup "default").getD 0)
  if !(truthyStr journey_date_str) then (none, "unknown")
  else
    let s := journey_date_str.getD ""
    let jdate : Option PyDatetime :=
      if s.toList.contains 'T' then parseISO ((pyReplaceChar s 'Z' "+00:00").toList)
      else tryFormats s
    match jdate with
    | none => (none, "unknown")
    | some jd =>
        let deadline_date := addDays jd deadline_days
        match pyGT now deadline_date with
        | none => (none, "unknown")
        | some b => (some (strftimeYMD deadline_date), if b then "expired" else "active")

/-! ## The `/scan` aggregation

One enriched email record per message (header fields plus the optional
extracted fields), and the opportunity construction, deduplication
against refund emails, and final sort from the `scan` route. -/

/-- An enriched email: raw headers plus `category` plus the optional
`ExtractedFields`, as assembled in `scan`'s per-message loop. -/
structure EnrichedEmail where
  date : String
  sender : String
  subject : String
  category : String
  booking_ref : Option String
  price : Option ℚ
  journey_date : Option String
  delay_mins : Option ℤ
  origin : Option String
  destination : Option String
  operator : Option String
  deriving Repr, DecidableEq

/-- One opportunity record, as built in `scan`. -/
structure Opportunity where
  date : String
  journey_date : String
  operator : String
  booking_ref : Option String
  origin : Option String
  destination : Option String
  price : Option ℚ
  delay_mins : Option ℤ
  refund_amount : Option ℚ
  refund_pct : Option ℤ
  deadline : Option String
  deadline_status : String
  confidence : String
  subject : String
  category : String
  deriving Repr, DecidableEq

/-- The `delays` partition: categories `delay`, `delay_claim`, `cancellation`. -/
def delaysOf (emails : List EnrichedEmail) : List EnrichedEmail :=
  emails.filter (fun e => e.category ∈ ["delay", "delay_claim", "cancellation"])

/-- The `refunds` partition: category `refund`. -/
def refundsOf (emails : List EnrichedEmail) : List EnrichedEmail :=
  emails.filter (fun e => e.category = "refund")

/-- `refunded_refs`: upper-cased booking refs of refund emails that have
a truthy booking ref (a set in the source; only membership is used). -/
def refundedRefs (refunds : List EnrichedEmail) : List String :=
  (refunds.filter (fun r => truthyStr r.booking_ref)).map
    (fun r => strUpper (r.booking_ref.getD ""))

/-- The dedup test of the `for delay in delays` loop: the record is kept
unless its upper-cased booking ref is non-empty and already refunded. -/
def survivesDedup (d : EnrichedEmail) (refs : List String) : Bool :=
  let ref := strUpper (d.booking_ref.getD "")
  !(ref ≠ "" && ref ∈ refs)

/-- The confidence assignment of `scan`: successive overwrites, with
Python truthiness on the tested fields. -/
def confidenceOf (d : EnrichedEmail) : String :=
  let c1 := "low"
  let c2 :=
    if truthyStr d.booking_ref && truthyInt d.delay_mins then "medium" else c1
  if truthyStr d.booking_ref && truthyInt d.delay_mins && truthyQ d.price then "high"
  else c2

/-- Build one opportunity record from a surviving delay record. -/
def mkOpportunity (now : PyDatetime) (d : EnrichedEmail) : Opportunity :=
  let price := d.price
  let delay_mins := d.delay_mins
  let operator := d.operator.getD "Unknown"
  let journey_date := if truthyStr d.journey_date then d.journey_date.getD "" else d.date
  let refund := calculate_refund delay_mins price operator
  let deadline := get_claim_deadline operator (some journey_date) now
  { date := d.date
    journey_date := journey_date
    operator := operator
    booking_ref := d.booking_ref
    origin := d.origin
    destination := d.destination
    price := price
    delay_mins := delay_mins
    refund_amount := refund.1
    refund_pct := refund.2
    deadline := deadline.1
    deadline_status := deadline.2
    confidence := confidenceOf d
    subject := strTake d.subject 80
    category := d.category }

/-- Confidence component of the sort key:
`0 if 'high' else 1 if 'medium' else 2`. -/
def confRank (c : String) : ℕ :=
  if c = "high" then 0 else if c = "medium" then 1 else 2

/-- Deadline-status component of the sort key: `0 if 'active' else 1`. -/
def statusRank (s : String) : ℕ :=
  if s = "active" then 0 else 1

/-- The sort key of `opportunities.sort`:
`(-(refund_amount or 0), confidence rank, deadline-status rank)`. -/
def sortKey (o : Opportunity) : ℚ × ℕ × ℕ :=
  (-(o.refund_amount.getD 0), confRank o.confidence, statusRank o.deadline_status)

/-- The sort key seen as an element of the lexicographic order on
triples — Python compares key tuples lexicographically. -/
def lexKey (o : Opportunity) : ℚ ×ₗ ℕ ×ₗ ℕ :=
  toLex ((sortKey o).1, toLex (sortKey o).2)

/-- Lexicographic comparison of sort keys (Python tuple `<=`). -/
def keyLe (a b : Opportunity) : Bool :=
  decide (lexKey a ≤ lexKey b)

/-- `list.sort(key=...)`: a stable sort by the key, modelled by
`mergeSort` (extensionally equal to any stable sort by the same key). -/
def sortOpps (l : List Opportunity) : List Opportunity :=
  l.mergeSort keyLe

/-- The opportunity records in the order they are appended by the
`for delay in delays` loop, before the final sort. -/
def preOpportunities (emails : List EnrichedEmail) (now : PyDatetime) :
    List Opportunity :=
  ((delaysOf emails).filter
      (fun d => survivesDedup d (refundedRefs (refundsOf emails)))).map
    (mkOpportunity now)

/-- The opportunity list produced by one scan over the enriched email
set: partition, dedup against refunded refs, build records, sort. -/
def scanOpportunities (emails : List EnrichedEmail) (now : PyDatetime) :
    List Opportunity :=
  sortOpps (preOpportunities emails now)

/-! ## Supporting lemmas -/

/-- Concrete evaluation of the descending sort of the standard scheme. -/
theorem sortedDesc_standard :
    sortedDesc schemeStandard = [(60, 1), (30, 1/2), (15, 1/4)] := by
  norm_num [sortedDesc, insertDesc, schemeStandard]

/-- Concrete evaluation of the descending sort of the DR15 scheme. -/
theorem sortedDesc_dr15 :
    sortedDesc schemeDelayRepay15 = [(120, 1), (60, 1), (30, 1/2), (15, 1/4)] := by
  norm_num [sortedDesc, insertDesc, schemeDelayRepay15]

/-- Concrete evaluation of the descending sort of the TfL scheme. -/
theorem sortedDesc_tfl : sortedDesc schemeTfl = [(15, 1)] := by
  norm_num [sortedDesc, insertDesc, schemeTfl]

/-- Unfolding of `calculate_refund` when both inputs are truthy. -/
theorem calculate_refund_truthy (d : ℤ) (P : ℚ) (op : String)
    (hd : d ≠ 0) (hP : P ≠ 0) :
    calculate_refund (some d) (some P) op =
      firstThreshold (sortedDesc (if op = "TfL" then schemeTfl
        else if op ∈ DR15_OPERATORS then schemeDelayRepay15 else schemeStandard)) d P := by
  have ht : truthyInt (some d) = true := by simp [truthyInt, hd]
  have hq : truthyQ (some P) = true := by simp [truthyQ, hP]
  simp [calculate_refund, ht, hq]

/-! ## The claims -/

/-- C2: `calculate_refund` returns `(none, none)` whenever `delay_mins`
is absent or zero, or `price` is absent or zero; and for every
`delay_mins < 15`, every operator, and every `price > 0` it also
returns `(none, none)`, 15 minutes being the lowest threshold of every
scheme. -/
theorem calculate_refund_ineligible :
    (∀ (price : Option ℚ) (op : String),
        calculate_refund none price op = (none, none) ∧
        calculate_refund (some 0) price op = (none, none)) ∧
    (∀ (d : Option ℤ) (op : String),
        calculate_refund d none op = (none, none) ∧
        calculate_refund d (some 0) op = (none, none)) ∧
    (∀ (d : ℤ) (P : ℚ) (op : String), d < 15 → 0 < P →
        calculate_refund (some d) (some P) op = (none, none)) := by
  refine ⟨?_, ?_, ?_⟩
  · intro price op
    constructor <;> simp [calculate_refund, truthyInt]
  · intro d op
    constructor <;> simp [calculate_refund, truthyQ]
  · intro d P op hd hP
    by_cases h0 : d = 0
    · subst h0; simp [calculate_refund, truthyInt]
    · rw [calculate_refund_truthy d P op h0 (ne_of_gt hP)]
      split_ifs with h1 h2
      · rw [sortedDesc_tfl]
        simp only [firstThreshold]
        split_ifs with c <;> first | rfl | omega
      · rw [sortedDesc_dr15]
        simp only [firstThreshold]
        split_ifs with c1 c2 c3 c4 <;> first | rfl | omega
      · rw [sortedDesc_standard]
        simp only [firstThreshold]
        split_ifs with c1 c2 c3 <;> first | rfl | omega

/-- C2 witness at `delay_mins = 14`, `price = 5`, operator `LNER`. -/
theorem calculate_refund_ineligible_witness :
    (14 : ℤ) < 15 ∧ (0 : ℚ) < 5 ∧
      calculate_refund (some 14) (some 5) "LNER" = (none, none) :=
  ⟨by norm_num, by norm_num,
    calculate_refund_ineligible.2.2 14 5 "LNER" (by norm_num) (by norm_num)⟩

/-- C1 counterexample: for operator `TfL`, delay 20 and price
`12.346` (a price with three decimal places), the refund amount is
`round(12.346, 2) = 12.35`, not the price itself, so the claim's
`(P, 100)` clause fails as stated. -/
theorem calculate_refund_tfl_rounds_price :
    calculate_refund (some 20) (some (12346/1000)) "TfL" = (some (247/20), some 100) ∧
    (247/20 : ℚ) ≠ 12346/1000 := by
  constructor
  · rw [calculate_refund_truthy 20 (12346/1000) "TfL" (by norm_num) (by norm_num)]
    rw [if_pos rfl, sortedDesc_tfl]
    simp only [firstThreshold]
    rw [if_pos (by norm_num)]
    norm_num [round2, roundHalfEven, pyInt]
  · norm_num

/-- The percentage assigned by the claim's description of the three
schemes (spec-side restatement, for comparison with the source). -/
def specPct (op : String) (d : ℤ) : ℚ :=
  if op = "TfL" then 1
  else if op ∈ DR15_OPERATORS then
    if 120 ≤ d then 1 else if 60 ≤ d then 1 else if 30 ≤ d then 1/2 else 1/4
  else
    if 60 ≤ d then 1 else if 30 ≤ d then 1/2 else 1/4

/-- C1 (amended): for every `delay_mins ≥ 15` and `price > 0`,
`calculate_refund` selects the scheme by operator, takes the highest
threshold met, and returns `(round(price*pct, 2), pct*100)`; for `TfL`
the result is `(round(P, 2), 100)` — equal to `(P, 100)` whenever `P`
is a two-decimal amount — and for a DR15 operator at 45 minutes it is
`(round(P*0.5, 2), 50)`. -/
theorem calculate_refund_schemes (d : ℤ) (P : ℚ) (op : String)
    (hd : 15 ≤ d) (hP : 0 < P) :
    calculate_refund (some d) (some P) op =
      (some (round2 (P * specPct op d)), some (pyInt (specPct op d * 100))) ∧
    (op = "TfL" →
      calculate_refund (some d) (some P) op = (some (round2 P), some 100)) ∧
    (op ∈ DR15_OPERATORS → d = 45 →
      calculate_refund (some d) (some P) op = (some (round2 (P * (1/2))), some 50)) ∧
    (∀ k : ℤ, P = (k : ℚ) / 100 → op = "TfL" →
      calculate_refund (some d) (some P) op = (some P, some 100)) := by
  have main : calculate_refund (some d) (some P) op =
      (some (round2 (P * specPct op d)), some (pyInt (specPct op d * 100))) := by
    rw [calculate_refund_truthy d P op (by omega) (ne_of_gt hP), specPct]
    by_cases h1 : op = "TfL"
    · rw [if_pos h1, if_pos h1, sortedDesc_tfl]
      simp only [firstThreshold]
      rw [if_pos hd]
    · by_cases h2 : op ∈ DR15_OPERATORS
      · rw [if_neg h1, if_neg h1, if_pos h2, if_pos h2, sortedDesc_dr15]
        simp only [firstThreshold]
        split_ifs with c1 c2 c3 c4 <;> first | rfl | omega
      · rw [if_neg h1, if_neg h1, if_neg h2, if_neg h2, sortedDesc_standard]
        simp only [firstThreshold]
        split_ifs with c1 c2 c3 c4 <;> first | rfl | omega
  refine ⟨main, ?_, ?_, ?_⟩
  · intro hop
    rw [main, hop]
    norm_num [specPct, pyInt]
  · intro hop h45
    have hnt : op ≠ "TfL" := by
      intro h; rw [h] at hop; revert hop; decide
    rw [main, h45]
    simp only [specPct, if_neg hnt, if_pos hop]
    norm_num [pyInt]
  · intro k hk hop
    subst hop
    rw [main]
    have hs : specPct "TfL" d = 1 := by rw [specPct, if_pos rfl]
    rw [hs, mul_one, one_mul, hk]
    have hc : ((k : ℚ) / 100) * 100 = (k : ℚ) := by
      rw [div_mul_cancel₀]
      norm_num
    rw [round2, hc, roundHalfEven]
    norm_num [pyInt]

/-- C1 witness: DR15 operator `LNER`, delay 45, price 2. -/
theorem calculate_refund_schemes_witness :
    (15 : ℤ) ≤ 45 ∧ (0 : ℚ) < 2 ∧ "LNER" ∈ DR15_OPERATORS ∧
      calculate_refund (some 45) (some 2) "LNER" = (some 1, some 50) := by
  refine ⟨by norm_num, by norm_num, by decide, ?_⟩
  have h := (calculate_refund_schemes 45 2 "LNER" (by norm_num) (by norm_num)).2.2.1
    (by decide) rfl
  rw [h]
  norm_num [round2, roundHalfEven]

/-- C7: the classifier lower-cases subject+body, tests the seven keyword
sets in the strict priority order delay_claim > refund > cancellation >
delay > booking > statement > receipt, returns the category of the
first set with a keyword present, and `other` if none matches; being a
function, it assigns every input exactly one category. -/
theorem categorise_email_eq_spec (subject body sender : String) :
    categorise_email subject body sender = categoriseSpec subject body sender := by
  rw [categorise_email, categoriseSpec, categoryRules]
  simp only [List.find?]
  rcases h1 : (["delay repay", "compensation claim", "your claim", "delay compensation"].any
      (fun kw => strContains (strLower (subject ++ " " ++ body)) kw)) <;>
  rcases h2 : (["refund", "money back", "reimbursement", "credited"].any
      (fun kw => strContains (strLower (subject ++ " " ++ body)) kw)) <;>
  rcases h3 : (["cancelled", "cancellation", "service disruption", "not running"].any
      (fun kw => strContains (strLower (subject ++ " " ++ body)) kw)) <;>
  rcases h4 : (["delayed", "delay", "late", "disruption"].any
      (fun kw => strContains (strLower (subject ++ " " ++ body)) kw)) <;>
  rcases h5 : (["booking confirmation", "e-ticket", "your ticket", "booking reference"].any
      (fun kw => strContains (strLower (subject ++ " " ++ body)) kw)) <;>
  rcases h6 : (["journey history", "oyster statement", "contactless statement"].any
      (fun kw => strContains (strLower (subject ++ " " ++ body)) kw)) <;>
  rcases h7 : (["receipt", "payment", "invoice"].any
      (fun kw => strContains (strLower (subject ++ " " ++ body)) kw)) <;>
  simp [h1, h2, h3, h4, h5, h6, h7]

/-- C8: station extraction collects every gazetteer station appearing
case-insensitively as a substring, in gazetteer order; two or more
found stations give (first, second) as (origin, destination), exactly
one gives origin only; with the claim's two example texts. -/
theorem stations_gazetteer :
    (∀ text : String,
        (∀ st, st ∈ found_stations text ↔
          st ∈ UK_STATIONS ∧ strContains (strLower text) (strLower st) = true) ∧
        (∀ a b rest, found_stations text = a :: b :: rest →
          stationFields text = (some a, some b)) ∧
        (∀ a, found_stations text = [a] → stationFields text = (some a, none)) ∧
        (found_stations text = [] → stationFields text = (none, none))) ∧
    stationFields "London Paddington to Bristol Temple Meads" =
      (some "London Paddington", some "Bristol Temple Meads") ∧
    stationFields "stuck at Leeds" = (some "Leeds", none) := by
  refine ⟨?_, by decide, by decide⟩
  intro text
  refine ⟨?_, ?_, ?_, ?_⟩
  · intro st
    simp [found_stations, List.mem_filter]
  · intro a b rest h
    rw [stationFields, h]
  · intro a h
    rw [stationFields, h]
  · intro h
    rw [stationFields, h]

/-- C6: the claim fails on the code for the `hr` spelling: the source
multiplies by 60 only when the literal substring `hour` occurs in the
match, so `"2 hrs late"` yields 2 minutes, not 120, while
`"2 hours late"` yields 120. -/
theorem extractDelayMins_hr_bug :
    extractDelayMins "2 hrs late" = some 2 ∧
    extractDelayMins "2 hours late" = some 120 ∧
    (2 : ℤ) ≠ 2 * 60 :=
  ⟨by decide, by decide, by decide⟩

/-- A fixed naive wall clock for concrete evaluations:
2026-10-12 10:00:00 (no tzinfo, as `datetime.now()` returns). -/
def nowOct2026 : PyDatetime :=
  ⟨(daysFromCivil 2026 10 12 : ℕ), 36000000000, none⟩

/-- C5: the claim fails on the code for timezone-aware ISO strings: the
`Z`-suffixed timestamp parses successfully, but comparing the naive
`datetime.now()` with the aware deadline raises a `TypeError` that the
bare `except` swallows, so the code returns `(None, 'unknown')` instead
of the deadline; the same instant written without the offset, or as
`01/01/2020`, yields `('2020-01-29', 'expired')` as the claim states,
and an absent journey date yields `(None, 'unknown')`. -/
theorem get_claim_deadline_aware_unknown :
    get_claim_deadline "LNER" (some "2020-01-01T00:00:00Z") nowOct2026 = (none, "unknown") ∧
    get_claim_deadline "LNER" (some "2020-01-01T00:00:00") nowOct2026 =
      (some "2020-01-29", "expired") ∧
    get_claim_deadline "LNER" (some "01/01/2020") nowOct2026 =
      (some "2020-01-29", "expired") ∧
    get_claim_deadline "LNER" none nowOct2026 = (none, "unknown") :=
  ⟨by decide, by decide, by decide, by decide⟩

/-- A delay email whose three confidence fields are all extracted but
whose `delay_mins` is the (falsy) value 0. -/
def zeroDelayEmail : EnrichedEmail :=
  { date := "", sender := "", subject := "", category := "delay",
    booking_ref := some "AB123456", price := some 10, journey_date := none,
    delay_mins := some 0, origin := none, destination := none, operator := none }

/-- C9 counterexample: with `booking_ref`, `delay_mins` and `price` all
extracted but `delay_mins = 0`, the code assigns confidence `low`, not
`high`: Python truthiness treats the zero value as absent. -/
theorem confidence_zero_delay_low :
    zeroDelayEmail.booking_ref.isSome = true ∧
    zeroDelayEmail.delay_mins = some 0 ∧
    zeroDelayEmail.price.isSome = true ∧
    confidenceOf zeroDelayEmail = "low" ∧
    "low" ≠ "high" :=
  ⟨rfl, rfl, rfl, by decide, by decide⟩

/-- C9 (amended): confidence is `high` exactly when `booking_ref` is
present and non-empty, `delay_mins` present and nonzero, and `price`
present and nonzero; `medium` exactly when the first two hold but not
the third; `low` otherwise. -/
theorem confidence_characterisation (d : EnrichedEmail) :
    (confidenceOf d = "high" ↔
      truthyStr d.booking_ref = true ∧ truthyInt d.delay_mins = true ∧
        truthyQ d.price = true) ∧
    (confidenceOf d = "medium" ↔
      truthyStr d.booking_ref = true ∧ truthyInt d.delay_mins = true ∧
        ¬ truthyQ d.price = true) ∧
    (confidenceOf d = "low" ↔
      ¬(truthyStr d.booking_ref = true ∧ truthyInt d.delay_mins = true)) := by
  rcases h1 : truthyStr d.booking_ref <;> rcases h2 : truthyInt d.delay_mins <;>
    rcases h3 : truthyQ d.price <;> simp [confidenceOf, h1, h2, h3]

/-- C3: a delay/cancellation/delay_claim record whose upper-cased,
non-empty booking ref equals the upper-cased booking ref of some refund
record of the same scan produces no opportunity: prepending such a
record to the scan leaves the opportunity list unchanged. -/
theorem scan_excludes_claimed (emails : List EnrichedEmail) (now : PyDatetime)
    (d r : EnrichedEmail)
    (hd : d.category ∈ ["delay", "delay_claim", "cancellation"])
    (hne : strUpper (d.booking_ref.getD "") ≠ "")
    (hr : r ∈ emails) (hrcat : r.category = "refund")
    (hmatch : strUpper (r.booking_ref.getD "") = strUpper (d.booking_ref.getD "")) :
    scanOpportunities (d :: emails) now = scanOpportunities emails now := by
  have hru : strUpper (r.booking_ref.getD "") ≠ "" := by
    rw [hmatch]; exact hne
  have hrref : truthyStr r.booking_ref = true := by
    cases hrb : r.booking_ref with
    | none => exact absurd (by rw [hrb]; rfl) hru
    | some s =>
        simp only [truthyStr, ne_eq, decide_eq_true_eq]
        intro hs
        rw [hrb, hs] at hru
        exact hru rfl
  have hdcat : d.category ≠ "refund" := by
    simp only [List.mem_cons, List.not_mem_nil, or_false] at hd
    rcases hd with h | h | h <;> simp [h]
  have hrefunds : refundsOf (d :: emails) = refundsOf emails := by
    rw [refundsOf, refundsOf, List.filter_cons, if_neg (by simpa using hdcat)]
  have hdelays : delaysOf (d :: emails) = d :: delaysOf emails := by
    rw [delaysOf, delaysOf, List.filter_cons, if_pos (by simpa using hd)]
  have hmem : strUpper (d.booking_ref.getD "") ∈ refundedRefs (refundsOf emails) := by
    rw [refundedRefs]
    refine List.mem_map.mpr ⟨r, List.mem_filter.mpr ⟨?_, hrref⟩, hmatch⟩
    rw [refundsOf]
    exact List.mem_filter.mpr ⟨hr, by simpa using hrcat⟩
  have hsurv : survivesDedup d (refundedRefs (refundsOf emails)) = false := by
    rw [survivesDedup]
    simp [hne, hmem]
  rw [scanOpportunities, scanOpportunities, preOpportunities, preOpportunities,
    hrefunds, hdelays, List.filter_cons, if_neg (by simp [hsurv])]

/-- A refund email and a delay email carrying the same booking ref up
to case, for the C3 witness. -/
def refundEmailB : EnrichedEmail :=
  { date := "", sender := "", subject := "", category := "refund",
    booking_ref := some "abc1234", price := none, journey_date := none,
    delay_mins := none, origin := none, destination := none, operator := none }

/-- The matching delay email (upper-case booking ref) for the C3 witness. -/
def delayEmailB : EnrichedEmail :=
  { date := "", sender := "", subject := "", category := "delay",
    booking_ref := some "ABC1234", price := some 30, journey_date := none,
    delay_mins := some 40, origin := none, destination := none, operator := none }

/-- C3 witness: a delay with ref `ABC1234` is dropped when a refund with
ref `abc1234` is present in the same scan. -/
theorem scan_excludes_claimed_witness :
    delayEmailB.category ∈ ["delay", "delay_claim", "cancellation"] ∧
    strUpper (delayEmailB.booking_ref.getD "") ≠ "" ∧
    refundEmailB ∈ [refundEmailB] ∧
    refundEmailB.category = "refund" ∧
    strUpper (refundEmailB.booking_ref.getD "") =
      strUpper (delayEmailB.booking_ref.getD "") ∧
    scanOpportunities [delayEmailB, refundEmailB] nowOct2026 =
      scanOpportunities [refundEmailB] nowOct2026 :=
  ⟨by decide, by decide, List.mem_singleton.mpr rfl, rfl, by decide,
    scan_excludes_claimed [refundEmailB] nowOct2026 delayEmailB refundEmailB
      (by decide) (by decide) (List.mem_singleton.mpr rfl) rfl (by decide)⟩

/-- Every result of `calculate_refund` is `(none, none)` or a pair
`(round(price * pct/100, 2), pct)` with `pct ∈ {25, 50, 100}` and
`price` the present price. -/
theorem calculate_refund_shape (dm : Option ℤ) (pr : Option ℚ) (op : String) :
    calculate_refund dm pr op = (none, none) ∨
    ∃ q p, pr = some q ∧ (p = (25 : ℤ) ∨ p = 50 ∨ p = 100) ∧
      calculate_refund dm pr op =
        (some (round2 (q * ((p : ℚ) / 100))), some p) := by
  by_cases h : (!(truthyInt dm) || !(truthyQ pr)) = true
  · left
    rw [calculate_refund, if_pos h]
  · have ht : truthyInt dm = true := by
      cases hdm : truthyInt dm
      · exact absurd (by rw [hdm]; simp) h
      · rfl
    have hq : truthyQ pr = true := by
      cases hqq : truthyQ pr
      · exact absurd (by rw [hqq]; simp) h
      · rfl
    obtain ⟨dv, rfl⟩ : ∃ dv, dm = some dv := by
      cases dm with
      | none => simp [truthyInt] at ht
      | some dv => exact ⟨dv, rfl⟩
    obtain ⟨q, rfl⟩ : ∃ q, pr = some q := by
      cases pr with
      | none => simp [truthyQ] at hq
      | some q => exact ⟨q, rfl⟩
    have hdv : dv ≠ 0 := by simpa [truthyInt] using ht
    have hq0 : q ≠ 0 := by simpa [truthyQ] using hq
    rw [calculate_refund_truthy dv q op hdv hq0]
    split_ifs with h1 h2
    · rw [sortedDesc_tfl]
      simp only [firstThreshold]
      split_ifs with c
      · exact Or.inr ⟨q, 100, rfl, by norm_num, by norm_num [pyInt]⟩
      · exact Or.inl rfl
    · rw [sortedDesc_dr15]
      simp only [firstThreshold]
      split_ifs with c1 c2 c3 c4
      · exact Or.inr ⟨q, 100, rfl, by norm_num, by norm_num [pyInt]⟩
      · exact Or.inr ⟨q, 100, rfl, by norm_num, by norm_num [pyInt]⟩
      · exact Or.inr ⟨q, 50, rfl, by norm_num, by norm_num [pyInt]⟩
      · exact Or.inr ⟨q, 25, rfl, by norm_num, by norm_num [pyInt]⟩
      · exact Or.inl rfl
    · rw [sortedDesc_standard]
      simp only [firstThreshold]
      split_ifs with c1 c2 c3
      · exact Or.inr ⟨q, 100, rfl, by norm_num, by norm_num [pyInt]⟩
      · exact Or.inr ⟨q, 50, rfl, by norm_num, by norm_num [pyInt]⟩
      · exact Or.inr ⟨q, 25, rfl, by norm_num, by norm_num [pyInt]⟩
      · exact Or.inl rfl

/-- C10: in every opportunity record of a scan, `refund_amount` and
`refund_pct` are both present or both absent, and when present the
percentage is 25, 50 or 100 and the amount is the record's price times
`pct/100`, rounded to 2 decimal places. -/
theorem opportunity_refund_invariant (emails : List EnrichedEmail)
    (now : PyDatetime) (o : Opportunity)
    (ho : o ∈ scanOpportunities emails now) :
    (o.refund_amount = none ↔ o.refund_pct = none) ∧
    (∀ a p, o.refund_amount = some a → o.refund_pct = some p →
      (p = 25 ∨ p = 50 ∨ p = 100) ∧
      ∃ q, o.price = some q ∧ a = round2 (q * ((p : ℚ) / 100))) := by
  rw [scanOpportunities, sortOpps, List.mem_mergeSort, preOpportunities] at ho
  obtain ⟨d, hd, rfl⟩ := List.mem_map.mp ho
  have hshape := calculate_refund_shape d.delay_mins d.price (d.operator.getD "Unknown")
  have hamt : (mkOpportunity now d).refund_amount =
      (calculate_refund d.delay_mins d.price (d.operator.getD "Unknown")).1 := rfl
  have hpct : (mkOpportunity now d).refund_pct =
      (calculate_refund d.delay_mins d.price (d.operator.getD "Unknown")).2 := rfl
  have hprice : (mkOpportunity now d).price = d.price := rfl
  rcases hshape with h | ⟨q, p, hqe, hp, h⟩
  · rw [hamt, hpct, hprice, h]
    simp
  · rw [hamt, hpct, hprice, h, hqe]
    constructor
    · simp
    · intro a p2 ha hp2
      cases ha
      cases hp2
      exact ⟨hp, q, rfl, rfl⟩

/-- A delay email producing an opportunity with a refund, for the C10
witness. -/
def delayEmailW : EnrichedEmail :=
  { date := "", sender := "x@lner.co.uk", subject := "45 minutes late",
    category := "delay", booking_ref := some "LN123456", price := some 20,
    journey_date := none, delay_mins := some 45, origin := none,
    destination := none, operator := some "LNER" }

/-- C10 witness: the single-email scan over `delayEmailW`. -/
theorem opportunity_refund_invariant_witness :
    mkOpportunity nowOct2026 delayEmailW ∈
      scanOpportunities [delayEmailW] nowOct2026 ∧
    (((mkOpportunity nowOct2026 delayEmailW).refund_amount = none ↔
        (mkOpportunity nowOct2026 delayEmailW).refund_pct = none) ∧
      (∀ a p, (mkOpportunity nowOct2026 delayEmailW).refund_amount = some a →
        (mkOpportunity nowOct2026 delayEmailW).refund_pct = some p →
        (p = 25 ∨ p = 50 ∨ p = 100) ∧
        ∃ q, (mkOpportunity nowOct2026 delayEmailW).price = some q ∧
          a = round2 (q * ((p : ℚ) / 100)))) := by
  have hmem : mkOpportunity nowOct2026 delayEmailW ∈
      scanOpportunities [delayEmailW] nowOct2026 := by
    rw [scanOpportunities, sortOpps, List.mem_mergeSort, preOpportunities]
    refine List.mem_map.mpr ⟨delayEmailW, ?_, rfl⟩
    refine List.mem_filter.mpr ⟨?_, by decide⟩
    rw [delaysOf]
    exact List.mem_filter.mpr ⟨List.mem_singleton.mpr rfl, by decide⟩
  exact ⟨hmem, opportunity_refund_invariant [delayEmailW] nowOct2026 _ hmem⟩

/-- The order described by the claim's sort key: refund amount
descending with missing amounts as 0, then confidence `high` before
`medium` before `low`, then `active` deadline status before the rest. -/
def specSortLe (a b : Opportunity) : Prop :=
  b.refund_amount.getD 0 < a.refund_amount.getD 0 ∨
  (a.refund_amount.getD 0 = b.refund_amount.getD 0 ∧
    (confRank a.confidence < confRank b.confidence ∨
      (confRank a.confidence = confRank b.confidence ∧
        statusRank a.deadline_status ≤ statusRank b.deadline_status)))

/-- The code's key comparison agrees with the claim's description. -/
theorem keyLe_iff_spec (a b : Opportunity) :
    keyLe a b = true ↔ specSortLe a b := by
  rw [keyLe, decide_eq_true_eq, lexKey, lexKey, Prod.Lex.le_iff, Prod.Lex.le_iff]
  simp only [sortKey, specSortLe, neg_lt_neg_iff, neg_inj]

/-- `keyLe` is transitive. -/
theorem keyLe_trans (a b c : Opportunity) :
    keyLe a b → keyLe b c → keyLe a c := by
  simp only [keyLe, decide_eq_true_eq]
  exact le_trans

/-- `keyLe` is total. -/
theorem keyLe_total (a b : Opportunity) : keyLe a b || keyLe b a := by
  simp only [keyLe]
  rcases le_total (lexKey a) (lexKey b) with h | h <;> simp [h]

/-- Stability of `mergeSort` in filter form: elements tied under the
comparison keep their original relative positions. -/
theorem mergeSort_filter_tied {α : Type} (le : α → α → Bool)
    (trans : ∀ a b c, le a b → le b c → le a c)
    (total : ∀ a b, le a b || le b a)
    (l : List α) (p : α → Bool)
    (hp : ∀ a b, p a = true → p b = true → le a b = true) :
    (l.mergeSort le).filter p = l.filter p := by
  have h1 : List.Sublist (l.filter p) l := List.filter_sublist l
  have hpair : (l.filter p).Pairwise (fun a b => le a b) := by
    apply List.pairwise_of_forall_mem_list
    intro a ha b hb
    exact hp a b (List.mem_filter.mp ha).2 (List.mem_filter.mp hb).2
  have h2 : List.Sublist (l.filter p) (l.mergeSort le) :=
    List.sublist_mergeSort trans total hpair h1
  have h3 : List.Perm ((l.mergeSort le).filter p) (l.filter p) :=
    (List.mergeSort_perm l le).filter p
  have h4 : List.Sublist (l.filter p) ((l.mergeSort le).filter p) := by
    have h5 := h2.filter p
    rw [List.filter_filter] at h5
    simpa only [Bool.and_self] using h5
  exact (h4.eq_of_length h3.length_eq.symm).symm

/-- C4: the final opportunities list is sorted by the lexicographic
key (refund amount descending with missing as 0, then confidence
high < medium < low, then deadline status active first), it is a
permutation of the pre-sort list, and elements tied on the whole key
keep their original relative order. -/
theorem scan_sort_spec (emails : List EnrichedEmail) (now : PyDatetime) :
    (scanOpportunities emails now).Pairwise specSortLe ∧
    List.Perm (scanOpportunities emails now) (preOpportunities emails now) ∧
    (∀ k : ℚ × ℕ × ℕ,
      (scanOpportunities emails now).filter (fun o => decide (sortKey o = k)) =
        (preOpportunities emails now).filter (fun o => decide (sortKey o = k))) := by
  refine ⟨?_, ?_, ?_⟩
  · rw [scanOpportunities, sortOpps]
    have hs := List.sorted_mergeSort keyLe_trans keyLe_total (preOpportunities emails now)
    exact hs.imp (fun hab => (keyLe_iff_spec _ _).mp hab)
  · rw [scanOpportunities, sortOpps]
    exact List.mergeSort_perm _ keyLe
  · intro k
    rw [scanOpportunities, sortOpps]
    refine mergeSort_filter_tied keyLe keyLe_trans keyLe_total _ _ ?_
    intro a b ha hb
    rw [decide_eq_true_eq] at ha hb
    rw [keyLe, decide_eq_true_eq, lexKey, lexKey, ha, hb]

end Trainalyze
